import Mathlib

/-!
# Verification of the f5project configuration/credential layer

This file gives a shallow embedding, in Lean 4, of the pure behaviour of the
`f5project` Python package (`f5project/__init__.py` and `f5project/cli/__init__.py`)
and proves or refutes the stated properties of its specification.

Strings are modelled as `List Char` (named `Str` below).  Python `str` helper
behaviour (`strip`, `rstrip`, splitting a text stream into lines with
universal-newline translation, blank-line detection) is embedded directly,
because the configuration writer (`SimpleConfigParser`) and the round-trip
properties depend on it.
-/

/-- Python strings, modelled as lists of characters. -/
abbrev Str := List Char

/-- The characters for which Python `str.isspace()` is true: the set
stripped by `str.strip()` and matched by regex `\\s` on `str` patterns
(`Py_UNICODE_ISSPACE`).  These are the ASCII controls 0x09 to 0x0d, the
separators 0x1c to 0x1f, the space 0x20, NEL 0x85, NBSP 0xa0, and the Unicode
space characters 0x1680, 0x2000 to 0x200a, 0x2028, 0x2029, 0x202f, 0x205f
and 0x3000. -/
def pyIsSpace (c : Char) : Bool :=
  let n := c.toNat
  (9 ≤ n && n ≤ 13) || (28 ≤ n && n ≤ 31) || n = 32 || n = 0x85 || n = 0xa0 ||
    n = 0x1680 || (0x2000 ≤ n && n ≤ 0x200a) || n = 0x2028 || n = 0x2029 ||
    n = 0x202f || n = 0x205f || n = 0x3000

/-- Python `str.lstrip()`. -/
def pyLstrip (s : Str) : Str := s.dropWhile pyIsSpace

/-- Python `str.rstrip()`: drop trailing whitespace. -/
def pyRstrip (s : Str) : Str := s.rdropWhile pyIsSpace

/-- Python `str.strip()`. -/
def pyStrip (s : Str) : Str := pyRstrip (pyLstrip s)

/-- A line is blank when all of its characters are Python whitespace
(Python: `not line.strip()`). -/
def pyIsBlank (s : Str) : Bool := s.all pyIsSpace

/-- Universal-newline translation, character by character; the flag records
whether the previous character was a `\r` (so that a following `\n` is
swallowed: `\r\n` is a single terminator). -/
def univAux : Bool → Str → Str
  | _, [] => []
  | prevCR, c :: rest =>
    if c = '\r' then '\n' :: univAux true rest
    else if c = '\n' then
      if prevCR then univAux false rest else '\n' :: univAux false rest
    else c :: univAux false rest

/-- Universal-newline translation: `\r\n` and `\r` both become `\n`
(the behaviour of reading a file in text mode). -/
def univNewline (s : Str) : Str := univAux false s

/-- Split a translated stream into chunks at `\n`.  Always nonempty: the final
chunk is the trailing text after the last terminator (possibly empty). -/
def splitOnNL : Str → List Str
  | [] => [[]]
  | c :: rest =>
    let ls := splitOnNL rest
    if c = '\n' then [] :: ls else (c :: ls.headI) :: ls.tail

/-- Split a character stream into lines at `\r\n`, `\r` or `\n`. -/
def splitLines (s : Str) : List Str := splitOnNL (univNewline s)

/-- Python `file.readlines()` on text `s`, with the line terminators removed:
a trailing terminator does not create an extra empty line. -/
def pyLines (s : Str) : List Str :=
  let ls := splitLines s
  if ls.getLast? = some [] then ls.dropLast else ls

/-! ## Basic lemmas about the string primitives -/

theorem pyRstrip_length_le (s : Str) : (pyRstrip s).length ≤ s.length :=
  (List.rdropWhile_prefix pyIsSpace s).length_le

theorem pyLstrip_length_le (s : Str) : (pyLstrip s).length ≤ s.length :=
  (List.dropWhile_suffix pyIsSpace).length_le

theorem dropWhile_eq_self_of_length {p : Char → Bool} {s : Str}
    (h : (s.dropWhile p).length = s.length) : s.dropWhile p = s := by
  cases s with
  | nil => rfl
  | cons c cs =>
    by_cases hc : p c
    · exfalso
      rw [List.dropWhile_cons_of_pos hc] at h
      have := (List.dropWhile_suffix (l := cs) p).length_le
      simp at h
      omega
    · rw [List.dropWhile_cons_of_neg hc]

/-- If `strip` leaves a string unchanged, so do `lstrip` and `rstrip`. -/
theorem strip_inv_parts {s : Str} (h : pyStrip s = s) :
    pyLstrip s = s ∧ pyRstrip s = s := by
  have hlen1 : (pyStrip s).length = s.length := by rw [h]
  have h2 : (pyRstrip (pyLstrip s)).length ≤ (pyLstrip s).length := pyRstrip_length_le _
  have h3 : (pyLstrip s).length ≤ s.length := pyLstrip_length_le s
  have hl : pyLstrip s = s := by
    apply dropWhile_eq_self_of_length
    have hlen2 : (pyLstrip s).length = s.length := by
      unfold pyStrip at hlen1
      omega
    simpa [pyLstrip] using hlen2
  refine ⟨hl, ?_⟩
  unfold pyStrip at h
  rw [hl] at h
  exact h

/-- `rstrip` leaves `A ++ B` unchanged when it leaves the nonempty `B`
unchanged. -/
theorem pyRstrip_append (A B : Str) (hB : pyRstrip B = B) (hne : B ≠ []) :
    pyRstrip (A ++ B) = A ++ B := by
  unfold pyRstrip at hB ⊢
  rw [List.rdropWhile_eq_self_iff] at hB ⊢
  intro hl
  rw [List.getLast_append' A B hne]
  exact hB hne

/-- `lstrip` leaves `s ++ t` unchanged whenever it leaves the nonempty `s`
unchanged. -/
theorem pyLstrip_append (s t : Str) (hs : pyLstrip s = s) (hne : s ≠ []) :
    pyLstrip (s ++ t) = s ++ t := by
  cases s with
  | nil => exact absurd rfl hne
  | cons c cs =>
    have hc : ¬ pyIsSpace c := by
      intro hc
      unfold pyLstrip at hs
      rw [List.dropWhile_cons_of_pos hc] at hs
      have h1 := (List.dropWhile_suffix (l := cs) pyIsSpace).length_le
      have h2 : (List.dropWhile pyIsSpace cs).length = cs.length + 1 := by
        rw [hs]; simp
      omega
    unfold pyLstrip
    rw [List.cons_append, List.dropWhile_cons_of_neg hc]

theorem univNewline_nil : univNewline [] = [] := rfl

theorem univNewline_cons_other (c : Char) (rest : Str) (h : c ≠ '\r') :
    univNewline (c :: rest) = c :: univNewline rest := by
  by_cases hn : c = '\n'
  · subst hn
    simp [univNewline, univAux]
  · simp [univNewline, univAux, h, hn]

/-- Characters other than `\r`/`\n` pass through the newline translation. -/
theorem univNewline_append_clean (l : Str) (hl : ∀ c ∈ l, c ≠ '\n' ∧ c ≠ '\r') :
    ∀ t : Str, univNewline (l ++ t) = l ++ univNewline t := by
  induction l with
  | nil => intro t; simp
  | cons c cs ih =>
    intro t
    have hc := hl c (List.mem_cons_self c cs)
    have hcs : ∀ x ∈ cs, x ≠ '\n' ∧ x ≠ '\r' := fun x hx => hl x (List.mem_cons_of_mem c hx)
    rw [List.cons_append, univNewline_cons_other c _ hc.2, ih hcs t]
    rfl

theorem splitOnNL_nl (rest : Str) : splitOnNL ('\n' :: rest) = [] :: splitOnNL rest := by
  simp [splitOnNL]

theorem splitOnNL_append_clean (l : Str) (hl : ∀ c ∈ l, c ≠ '\n')
    {t : Str} {hd : Str} {tl : List Str} (ht : splitOnNL t = hd :: tl) :
    splitOnNL (l ++ t) = (l ++ hd) :: tl := by
  induction l with
  | nil => simpa using ht
  | cons c cs ih =>
    have hc := hl c (List.mem_cons_self c cs)
    have hcs : ∀ x ∈ cs, x ≠ '\n' := fun x hx => hl x (List.mem_cons_of_mem c hx)
    rw [List.cons_append]
    simp only [splitOnNL, ih hcs, if_neg hc]
    simp

/-- Splitting the concatenation of newline-terminated clean lines recovers the
lines (plus the empty trailing chunk). -/
theorem splitLines_join (ls : List Str)
    (h : ∀ l ∈ ls, ∀ c ∈ l, c ≠ '\n' ∧ c ≠ '\r') :
    splitLines ((ls.map (· ++ ['\n'])).flatten) = ls ++ [[]] := by
  induction ls with
  | nil => simp [splitLines, univNewline_nil, splitOnNL]
  | cons l ls ih =>
    have hl := h l (List.mem_cons_self l ls)
    have hls : ∀ x ∈ ls, ∀ c ∈ x, c ≠ '\n' ∧ c ≠ '\r' :=
      fun x hx => h x (List.mem_cons_of_mem l hx)
    have hstep := ih hls
    unfold splitLines at hstep ⊢
    simp only [List.map_cons, List.flatten_cons, List.append_assoc, List.cons_append,
      List.singleton_append]
    rw [univNewline_append_clean l hl, univNewline_cons_other '\n' _ (by decide),
      splitOnNL_append_clean l (fun c hc => (hl c hc).1) (splitOnNL_nl _)]
    simp only [List.nil_append, List.append_nil]
    rw [hstep]


/-! ## Base64, as used by `base64.b64encode` / `base64.b64decode`
(the Binary Credential Codec, `FugleCert`). -/

/-- The standard base64 alphabet. -/
def b64alphabet : Str :=
  "ABCDEFGHIJKLMNOPQRSTUVWXYZabcdefghijklmnopqrstuvwxyz0123456789+/".data

/-- The character encoding a 6-bit group. -/
def char64 (n : Nat) : Char := b64alphabet.getD n '='

/-- The 6-bit group encoded by a character (none for non-alphabet characters,
including the padding character). -/
def dec64 (c : Char) : Option Nat := b64alphabet.indexOf? c

/-- `base64.b64encode` on a byte list (bytes as `Nat < 256`). -/
def b64encode : List Nat → Str
  | [] => []
  | [a] => [char64 (a / 4), char64 (a % 4 * 16), '=', '=']
  | [a, b] => [char64 (a / 4), char64 (a % 4 * 16 + b / 16), char64 (b % 16 * 4), '=']
  | a :: b :: c :: rest =>
    char64 (a / 4) :: char64 (a % 4 * 16 + b / 16) :: char64 (b % 16 * 4 + c / 64) ::
      char64 (c % 64) :: b64encode rest

/-- `base64.b64decode` on a base64 text (groups of four characters, `=` padding
allowed only at the end).  Returns `none` on malformed input, where Python
raises `binascii.Error`. -/
def b64decode : Str → Option (List Nat)
  | [] => some []
  | w :: x :: y :: z :: rest =>
    match dec64 w, dec64 x with
    | some i1, some i2 =>
      if y = '=' ∧ z = '=' ∧ rest = [] then
        some [i1 * 4 + i2 / 16]
      else if z = '=' ∧ rest = [] then
        match dec64 y with
        | some i3 => some [i1 * 4 + i2 / 16, i2 % 16 * 16 + i3 / 4]
        | none => none
      else
        match dec64 y, dec64 z, b64decode rest with
        | some i3, some i4, some bs =>
          some ((i1 * 4 + i2 / 16) :: (i2 % 16 * 16 + i3 / 4) :: (i3 % 4 * 64 + i4) :: bs)
        | _, _, _ => none
    | _, _ => none
  | _ => none

theorem dec64_char64 : ∀ n, n < 64 → dec64 (char64 n) = some n := by decide

theorem char64_ne_eq : ∀ n, n < 64 → char64 n ≠ '=' := by decide

/-- Round trip: decoding the canonical encoding of any byte list recovers it.
This is the heart of the Binary Credential Codec. -/
theorem b64decode_b64encode : ∀ bs : List Nat, (∀ x ∈ bs, x < 256) →
    b64decode (b64encode bs) = some bs
  | [], _ => rfl
  | [a], h => by
    have h1 : a < 256 := h a (by simp)
    have e1 : dec64 (char64 (a / 4)) = some (a / 4) := dec64_char64 _ (by omega)
    have e2 : dec64 (char64 (a % 4 * 16)) = some (a % 4 * 16) := dec64_char64 _ (by omega)
    simp only [b64encode, b64decode, e1, e2]
    rw [if_pos (by simp)]
    simp only [Option.some.injEq, List.cons.injEq, and_true]
    omega
  | [a, b], h => by
    have h1 : a < 256 := h a (by simp)
    have h2 : b < 256 := h b (by simp)
    have e1 : dec64 (char64 (a / 4)) = some (a / 4) := dec64_char64 _ (by omega)
    have e2 : dec64 (char64 (a % 4 * 16 + b / 16)) = some (a % 4 * 16 + b / 16) :=
      dec64_char64 _ (by omega)
    have e3 : dec64 (char64 (b % 16 * 4)) = some (b % 16 * 4) := dec64_char64 _ (by omega)
    have ne3 : char64 (b % 16 * 4) ≠ '=' := char64_ne_eq _ (by omega)
    simp only [b64encode, b64decode, e1, e2, e3]
    rw [if_neg (by simp [ne3]), if_pos (by simp)]
    simp only [Option.some.injEq, List.cons.injEq, and_true]
    constructor <;> omega
  | a :: b :: c :: rest, h => by
    have h1 : a < 256 := h a (by simp)
    have h2 : b < 256 := h b (by simp)
    have h3 : c < 256 := h c (by simp)
    have hrest : ∀ x ∈ rest, x < 256 := fun x hx => h x (by simp [hx])
    have ih := b64decode_b64encode rest hrest
    have e1 : dec64 (char64 (a / 4)) = some (a / 4) := dec64_char64 _ (by omega)
    have e2 : dec64 (char64 (a % 4 * 16 + b / 16)) = some (a % 4 * 16 + b / 16) :=
      dec64_char64 _ (by omega)
    have e3 : dec64 (char64 (b % 16 * 4 + c / 64)) = some (b % 16 * 4 + c / 64) :=
      dec64_char64 _ (by omega)
    have e4 : dec64 (char64 (c % 64)) = some (c % 64) := dec64_char64 _ (by omega)
    have ne3 : char64 (b % 16 * 4 + c / 64) ≠ '=' := char64_ne_eq _ (by omega)
    have ne4 : char64 (c % 64) ≠ '=' := char64_ne_eq _ (by omega)
    cases rest with
    | nil =>
      simp only [b64encode, b64decode, e1, e2, e3, e4]
      rw [if_neg (by simp [ne3]), if_neg (by simp [ne4])]
      simp only [b64decode, Option.some.injEq, List.cons.injEq, and_true]
      refine ⟨by omega, by omega, by omega⟩
    | cons d ds =>
      simp only [b64encode] at ih ⊢
      simp only [b64decode, e1, e2, e3, e4]
      rw [if_neg (by simp [ne3]), if_neg (by simp [ne4])]
      rw [ih]
      simp only [Option.some.injEq, List.cons.injEq, and_true]
      refine ⟨by omega, by omega, by omega⟩

/-! ## The Key-Value File Writer (`SimpleConfigParser`)

`SimpleConfigParser` subclasses `RawConfigParser` with an identity
`optionxform` (no key case-folding).  `from_dict` adds each section (which
raises for a duplicate section name or the reserved name `DEFAULT`) and fills
in its options in insertion order.  `to_file` writes the standard
`RawConfigParser` serialization (`[section]` header, `key = value` with
newlines in values turned into `"\n\t"` continuations, a blank line after each
section) and then rewrites the file keeping only non-blank lines. -/

/-- `str(value).replace('\n', '\n\t')` of `RawConfigParser._write_section`. -/
def iniValueRepl (v : Str) : Str :=
  v.flatMap (fun c => if c = '\n' then ['\n', '\t'] else [c])

/-- One section as serialized by `RawConfigParser.write`. -/
def writeSection (name : Str) (items : List (Str × Str)) : Str :=
  ('[' :: name ++ [']', '\n']) ++
    (items.map (fun kv => kv.1 ++ (' ' :: '=' :: ' ' :: iniValueRepl kv.2) ++ ['\n'])).flatten
    ++ ['\n']

/-- The full text produced by `RawConfigParser.write` (no defaults). -/
def writeConfig (d : List (Str × List (Str × Str))) : Str :=
  (d.map (fun s => writeSection s.1 s.2)).flatten

/-- The blank-line-stripping second pass of `SimpleConfigParser.to_file`:
re-read the file as lines, keep only lines with non-whitespace content. -/
def stripBlankLines (text : Str) : Str :=
  (((pyLines text).filter (fun l => !pyIsBlank l)).map (· ++ ['\n'])).flatten

def sectionNames (d : List (Str × List (Str × Str))) : List Str := d.map Prod.fst

/-- `SimpleConfigParser().from_dict(d).to_file(path)`: the file contents, or an
error when `add_section` raises (duplicate section or the reserved name
`DEFAULT`). -/
def simpleConfigToFile (d : List (Str × List (Str × Str))) : Except String Str :=
  if "DEFAULT".data ∈ sectionNames d ∨ ¬ (sectionNames d).Nodup then
    .error "add_section raises"
  else
    .ok (stripBlankLines (writeConfig d))

/-- The output format asserted by the specification: for each section in
order, a header line followed by one `key = value` line per key. -/
def expectedOutput (d : List (Str × List (Str × Str))) : Str :=
  (d.map (fun s =>
    ('[' :: s.1 ++ [']', '\n']) ++
      (s.2.map (fun kv => kv.1 ++ (' ' :: '=' :: ' ' :: kv.2) ++ ['\n'])).flatten)).flatten

/-- No newline and no carriage return anywhere in the string. -/
def noNLCR (s : Str) : Prop := ∀ c ∈ s, c ≠ '\n' ∧ c ≠ '\r'

instance (s : Str) : Decidable (noNLCR s) := by unfold noNLCR; infer_instance

/-- All section names, keys and values are newline-free. -/
def cleanConfig (d : List (Str × List (Str × Str))) : Prop :=
  ∀ p ∈ d, noNLCR p.1 ∧ ∀ kv ∈ p.2, noNLCR kv.1 ∧ noNLCR kv.2

theorem iniValueRepl_clean {v : Str} (hv : noNLCR v) : iniValueRepl v = v := by
  induction v with
  | nil => rfl
  | cons c cs ih =>
    have hc := hv c (List.mem_cons_self c cs)
    have hcs : noNLCR cs := fun x hx => hv x (List.mem_cons_of_mem c hx)
    simp [iniValueRepl, hc.1] at ih ⊢
    exact ih hcs

/-- The logical lines of one serialized section, without the trailing blank
line: header, then one `key = value` line per key. -/
def sectionLines (name : Str) (items : List (Str × Str)) : List Str :=
  ('[' :: name ++ [']']) :: items.map (fun kv => kv.1 ++ (' ' :: '=' :: ' ' :: kv.2))

/-- The logical lines of the raw `RawConfigParser.write` output, including the
blank line terminating each section. -/
def linesWithBlanks (d : List (Str × List (Str × Str))) : List Str :=
  (d.map (fun s => sectionLines s.1 s.2 ++ [[]])).flatten

/-- The logical lines of the stripped output. -/
def configLines (d : List (Str × List (Str × Str))) : List Str :=
  (d.map (fun s => sectionLines s.1 s.2)).flatten

theorem writeSection_lines (name : Str) (items : List (Str × Str))
    (hclean : ∀ kv ∈ items, noNLCR kv.2) :
    writeSection name items =
      (((sectionLines name items ++ [[]]).map (· ++ ['\n']))).flatten := by
  simp only [writeSection, sectionLines, List.map_append, List.map_cons, List.map_nil,
    List.flatten_cons, List.flatten_append, List.flatten_nil, List.append_nil,
    List.map_map]
  have hmid : ∀ its : List (Str × Str), (∀ kv ∈ its, noNLCR kv.2) →
      (its.map (fun kv => kv.1 ++ (' ' :: '=' :: ' ' :: iniValueRepl kv.2) ++ ['\n'])).flatten =
      (its.map ((· ++ ['\n']) ∘ fun kv => kv.1 ++ (' ' :: '=' :: ' ' :: kv.2))).flatten := by
    intro its hits
    induction its with
    | nil => rfl
    | cons kv rest ih =>
      have h1 := hits kv (List.mem_cons_self kv rest)
      have h2 : ∀ x ∈ rest, noNLCR x.2 := fun x hx => hits x (List.mem_cons_of_mem kv hx)
      have ihr := ih h2
      simp only [List.map_cons, List.flatten_cons, iniValueRepl_clean h1,
        Function.comp_apply]
      rw [ihr]
  rw [hmid items hclean]
  simp

theorem writeConfig_lines (d : List (Str × List (Str × Str))) (hc : cleanConfig d) :
    writeConfig d = ((linesWithBlanks d).map (· ++ ['\n'])).flatten := by
  induction d with
  | nil => rfl
  | cons s rest ih =>
    have h1 := hc s (List.mem_cons_self s rest)
    have h2 : cleanConfig rest := fun x hx => hc x (List.mem_cons_of_mem s hx)
    simp only [writeConfig, linesWithBlanks, List.map_cons, List.flatten_cons,
      List.map_append] at ih ⊢
    rw [writeSection_lines s.1 s.2 (fun kv hkv => ((h1.2 kv hkv).2)), ih h2]
    simp [List.flatten_append]

theorem linesWithBlanks_clean (d : List (Str × List (Str × Str))) (hc : cleanConfig d) :
    ∀ l ∈ linesWithBlanks d, ∀ c ∈ l, c ≠ '\n' ∧ c ≠ '\r' := by
  intro l hl c hcl
  simp only [linesWithBlanks, List.mem_flatten, List.mem_map] at hl
  obtain ⟨ls, ⟨s, hs, rfl⟩, hmem⟩ := hl
  have hsc := hc s hs
  rcases List.mem_append.mp hmem with hmem | hmem
  · simp only [sectionLines, List.mem_cons, List.mem_map] at hmem
    rcases hmem with rfl | ⟨kv, hkv, rfl⟩
    · rcases List.mem_cons.mp hcl with rfl | h2
      · exact ⟨by decide, by decide⟩
      rcases List.mem_append.mp h2 with h3 | h3
      · exact hsc.1 c h3
      · rw [List.mem_singleton] at h3
        subst h3
        exact ⟨by decide, by decide⟩
    · have hkvc := hsc.2 kv hkv
      rcases List.mem_append.mp hcl with h3 | h3
      · exact hkvc.1 c h3
      rcases List.mem_cons.mp h3 with rfl | h4
      · exact ⟨by decide, by decide⟩
      rcases List.mem_cons.mp h4 with rfl | h5
      · exact ⟨by decide, by decide⟩
      rcases List.mem_cons.mp h5 with rfl | h6
      · exact ⟨by decide, by decide⟩
      exact hkvc.2 c h6
  · simp at hmem
    subst hmem
    simp at hcl

theorem filter_linesWithBlanks (d : List (Str × List (Str × Str))) :
    (linesWithBlanks d).filter (fun l => !pyIsBlank l) = configLines d := by
  induction d with
  | nil => rfl
  | cons s rest ih =>
    simp only [linesWithBlanks, configLines, List.map_cons, List.flatten_cons,
      List.filter_append] at ih ⊢
    rw [ih]
    congr 1
    have hblank : List.filter (fun l => !pyIsBlank l) [([] : Str)] = [] := by
      simp [pyIsBlank]
    rw [hblank, List.append_nil]
    apply List.filter_eq_self.mpr
    intro l hml
    have hsp1 : pyIsSpace '[' = false := by decide
    have hsp2 : pyIsSpace '=' = false := by decide
    have hsp3 : pyIsSpace ' ' = true := by decide
    simp only [sectionLines, List.mem_cons, List.mem_map] at hml
    rcases hml with rfl | ⟨kv, _, rfl⟩
    · simp [pyIsBlank, hsp1]
    · simp [pyIsBlank, List.all_append, hsp2, hsp3]

theorem expectedOutput_lines (d : List (Str × List (Str × Str))) :
    expectedOutput d = ((configLines d).map (· ++ ['\n'])).flatten := by
  induction d with
  | nil => rfl
  | cons s rest ih =>
    simp only [expectedOutput, configLines, List.map_cons, List.flatten_cons,
      List.map_append] at ih ⊢
    rw [ih]
    simp only [sectionLines, List.map_cons, List.flatten_cons, List.flatten_append,
      List.map_map]
    simp [Function.comp_def, List.append_assoc]

/-- The two-pass write of `SimpleConfigParser.to_file` produces exactly the
claimed format, for clean (newline-free) sections, keys and values. -/
theorem stripBlank_writeConfig (d : List (Str × List (Str × Str))) (hc : cleanConfig d) :
    stripBlankLines (writeConfig d) = expectedOutput d := by
  rw [stripBlankLines, writeConfig_lines d hc, expectedOutput_lines]
  have hsplit := splitLines_join (linesWithBlanks d) (linesWithBlanks_clean d hc)
  have hpy : pyLines (((linesWithBlanks d).map (· ++ ['\n'])).flatten) = linesWithBlanks d := by
    unfold pyLines
    rw [hsplit]
    simp
  rw [hpy, filter_linesWithBlanks]

/-! ## The config-file reader (`RawConfigParser.read`)

`FugleAccount` re-reads the generated file through `configparser`.  The
relevant behaviour of `RawConfigParser._read` is embedded: full-line comments,
blank lines appended to multi-line values, continuation lines (more indented
than the line that started the current option), section headers
`[name]`, `key = value` options (key right-stripped, value stripped, first
`=`/`:` is the delimiter), strict duplicate detection, and the final
`'\n'.join(parts).rstrip()` of `_join_multiline_values`. -/

/-- Index of the first `=` or `:` (the option/value delimiter). -/
def findDelim : Str → Option Nat
  | [] => Option.none
  | c :: cs => if c = '=' ∨ c = ':' then some 0 else (findDelim cs).map (· + 1)

/-- The option regex `OPTCRE` applied to a stripped line: key is the
right-stripped text before the first delimiter, value the stripped text after
it. -/
def optcreMatch (v : Str) : Option (Str × Str) :=
  match findDelim v with
  | some j => some (pyRstrip (v.take j), pyStrip (v.drop (j + 1)))
  | Option.none => Option.none

/-- The section-header regex `SECTCRE` applied (as `re.match`) to a stripped
line: `[`, one or more non-`]` characters, `]`. -/
def sectMatch (v : Str) : Option Str :=
  match v with
  | c :: rest =>
    if c = '[' then
      let name := rest.takeWhile (fun x => x ≠ ']')
      if name ≠ [] ∧ rest.drop name.length ≠ [] then some name else Option.none
    else Option.none
  | [] => Option.none

/-- Number of leading whitespace characters (the `cur_indent_level` of
`_read`). -/
def indentOf (l : Str) : Nat := (l.takeWhile pyIsSpace).length

/-- Parser state during `_read`.  Option values are accumulated as lists of
parts (`cursect[optname]` is a list in CPython too, joined at the end).
`seenDefault` records the `elements_added` entry for a `DEFAULT` header; it
is never consulted, because the duplicate-section check only fires for
sections in `_sections` and `DEFAULT` is routed to `_defaults` instead. -/
structure PState where
  defaults : List (Str × List Str)
  sections : List (Str × List (Str × List Str))
  cursect : Option Str
  optname : Option Str
  indent : Nat
  seenDefault : Bool

def appendPart (opts : List (Str × List Str)) (key : Str) (part : Str) :
    List (Str × List Str) :=
  opts.map (fun kv => if kv.1 = key then (kv.1, kv.2 ++ [part]) else kv)

/-- Append a continuation part to the current option of section `sec`
(`cursect[optname].append(...)`). -/
def PState.appendToCur (st : PState) (sec key : Str) (part : Str) : PState :=
  if sec = "DEFAULT".data then
    ⟨appendPart st.defaults key part, st.sections, st.cursect, st.optname, st.indent,
      st.seenDefault⟩
  else
    ⟨st.defaults,
      st.sections.map (fun s => if s.1 = sec then (s.1, appendPart s.2 key part) else s),
      st.cursect, st.optname, st.indent, st.seenDefault⟩

/-- Is option `key` already present in section `sec` (strict mode duplicate
detection)? -/
def PState.hasOption (st : PState) (sec key : Str) : Bool :=
  if sec = "DEFAULT".data then (st.defaults.map Prod.fst).contains key
  else
    match st.sections.find? (fun s => s.1 = sec) with
    | some s => (s.2.map Prod.fst).contains key
    | Option.none => false

/-- Start a fresh option `key` with first part `val` in section `sec`
(`cursect[optname] = [optval]`), recording the new indent level. -/
def PState.setOption (st : PState) (sec key val : Str) (ci : Nat) : PState :=
  if sec = "DEFAULT".data then
    ⟨st.defaults ++ [(key, [val])], st.sections, st.cursect, some key, ci, st.seenDefault⟩
  else
    ⟨st.defaults,
      st.sections.map (fun s => if s.1 = sec then (s.1, s.2 ++ [(key, [val])]) else s),
      st.cursect, some key, ci, st.seenDefault⟩

/-- Process a stripped, non-blank, non-comment, non-continuation line: section
header or option assignment. -/
def headerOrOption (st : PState) (v : Str) (ci : Nat) : Except String PState :=
  match sectMatch v with
  | some name =>
    if name = "DEFAULT".data then
      .ok ⟨st.defaults, st.sections, some name, Option.none, ci, true⟩
    else if (st.sections.map Prod.fst).contains name then .error "DuplicateSectionError"
    else
      .ok ⟨st.defaults, st.sections ++ [(name, [])], some name, Option.none, ci,
        st.seenDefault⟩
  | Option.none =>
    match st.cursect with
    | Option.none => .error "MissingSectionHeaderError"
    | some sec =>
      match optcreMatch v with
      | some kv =>
        if st.hasOption sec kv.1 then .error "DuplicateOptionError"
        else .ok (st.setOption sec kv.1 kv.2 ci)
      | Option.none => .error "ParsingError"

/-- One line of `RawConfigParser._read`. -/
def pstep (st : PState) (l : Str) : Except String PState :=
  let v := pyStrip l
  let isComment : Bool :=
    match v with
    | c :: _ => c = '#' || c = ';'
    | [] => false
  if isComment then .ok st
  else if v = [] then
    match st.cursect, st.optname with
    | some sec, some key => if key ≠ [] then .ok (st.appendToCur sec key []) else .ok st
    | _, _ => .ok st
  else
    let ci := indentOf l
    match st.cursect, st.optname with
    | some sec, some key =>
      if key ≠ [] ∧ st.indent < ci then .ok (st.appendToCur sec key v)
      else headerOrOption st v ci
    | _, _ => headerOrOption st v ci

def runLines (st : PState) : List Str → Except String PState
  | [] => .ok st
  | l :: ls =>
    match pstep st l with
    | .error e => .error e
    | .ok st2 => runLines st2 ls

/-- `_join_multiline_values`: `'\n'.join(parts).rstrip()`. -/
def joinParts (parts : List Str) : Str := pyRstrip (List.intercalate ['\n'] parts)

def joinOpts (opts : List (Str × List Str)) : List (Str × Str) :=
  opts.map (fun kv => (kv.1, joinParts kv.2))

/-- The observable result of reading a config file: the `DEFAULT` section and
the named sections with their option values, in order. -/
structure ParsedConfig where
  defaults : List (Str × Str)
  sections : List (Str × List (Str × Str))
deriving DecidableEq

def initPState : PState :=
  ⟨[], [], Option.none, Option.none, 0, false⟩

/-- Read a config file text: run `_read` over its lines and join the
accumulated value parts. -/
def parseConfig (text : Str) : Except String ParsedConfig :=
  match runLines initPState (pyLines text) with
  | .error e => .error e
  | .ok st => .ok ⟨joinOpts st.defaults, st.sections.map (fun s => (s.1, joinOpts s.2))⟩

/-! ## `FugleCert` — the Binary Credential Codec

The file system is modelled by passing byte contents directly: `from_file`
takes the bytes of the file it would read, `to_file` returns the bytes it
writes (or an error when `base64.b64decode` raises). -/

structure FugleCert where
  string : Str
deriving DecidableEq

def FugleCert.from_file (fileBytes : List Nat) : FugleCert :=
  ⟨b64encode fileBytes⟩

def FugleCert.to_file (cert : FugleCert) : Except String (List Nat) :=
  match b64decode cert.string with
  | some bytes => .ok bytes
  | Option.none => .error "binascii.Error"

def FugleCert.from_string (s : Str) : FugleCert := ⟨s⟩

def FugleCert.to_string (cert : FugleCert) : Str := cert.string

/-! ## `FugleConfig` — the broker config artifact -/

structure FugleConfig where
  fugle_cert : Str
  fugle_api_entry : Str
  fugle_api_key : Str
  fugle_api_secret : Str
  fugle_account : Str
deriving DecidableEq

/-- The two files produced by `FugleConfig.to_file`: the decoded certificate
and the config text (which references the certificate by path). -/
structure FugleFiles where
  cert_path : Str
  cert_bytes : List Nat
  config_text : Str
deriving DecidableEq

/-- The `config_dict` literal of `FugleConfig.to_file`: the four sections
`Core`, `Cert`, `Api`, `User` with their fixed keys. -/
def fugleConfigDict (cfg : FugleConfig) (cert_path : Str) :
    List (Str × List (Str × Str)) :=
  [("Core".data, [("Entry".data, cfg.fugle_api_entry)]),
   ("Cert".data, [("Path".data, cert_path)]),
   ("Api".data, [("Key".data, cfg.fugle_api_key), ("Secret".data, cfg.fugle_api_secret)]),
   ("User".data, [("Account".data, cfg.fugle_account)])]

/-- `FugleConfig.to_file(data_dir)`: decode the certificate to
`data_dir/fugle-cert.p12`, then write `data_dir/fugle-config.ini` through
`SimpleConfigParser`.  Errors propagate (bad base64, `add_section`). -/
def FugleConfig.to_file (cfg : FugleConfig) (data_dir : Str) : Except String FugleFiles :=
  match (FugleCert.from_string cfg.fugle_cert).to_file with
  | .error e => .error e
  | .ok bytes =>
    match simpleConfigToFile (fugleConfigDict cfg (data_dir ++ "/fugle-cert.p12".data)) with
    | .error e => .error e
    | .ok text => .ok ⟨data_dir ++ "/fugle-cert.p12".data, bytes, text⟩

/-! ## Python/JSON values -/

/-- JSON-representable Python values (`json.loads` results and endpoint
parameters/results). -/
inductive PyVal where
  | none : PyVal
  | bool : Bool → PyVal
  | int : Int → PyVal
  | str : Str → PyVal
  | list : List PyVal → PyVal
  | dict : List (Str × PyVal) → PyVal

/-- Python truthiness of a JSON-representable value (`None`, `False`, `0`,
`""`, `[]`, `{}` are falsy). -/
def pyTruthy : PyVal → Bool
  | .none => false
  | .bool b => b
  | .int n => n != 0
  | .str s => !s.isEmpty
  | .list xs => !xs.isEmpty
  | .dict kvs => !kvs.isEmpty

/-! ## `json.dumps` for the configuration mappings -/

def hexDigit (n : Nat) : Char :=
  "0123456789abcdef".data.getD n '0'

/-- `\uXXXX`, lowercase hex, as produced by `json.dumps` (`ensure_ascii`). -/
def uEscape (n : Nat) : Str :=
  ['\\', 'u', hexDigit (n / 4096 % 16), hexDigit (n / 256 % 16), hexDigit (n / 16 % 16),
    hexDigit (n % 16)]

/-- Escaping of one character inside a JSON string, following
`json.encoder.py_encode_basestring_ascii`. -/
def jsonEscapeChar (c : Char) : Str :=
  if c = '"' then ['\\', '"']
  else if c = '\\' then ['\\', '\\']
  else if c = '\n' then ['\\', 'n']
  else if c = '\r' then ['\\', 'r']
  else if c = '\t' then ['\\', 't']
  else if c = '\x08' then ['\\', 'b']
  else if c = '\x0c' then ['\\', 'f']
  else if 0x20 ≤ c.toNat ∧ c.toNat ≤ 0x7e then [c]
  else if c.toNat < 0x10000 then uEscape c.toNat
  else
    uEscape (0xd800 + (c.toNat - 0x10000) / 1024) ++
      uEscape (0xdc00 + (c.toNat - 0x10000) % 1024)

def jsonQuote (s : Str) : Str :=
  '"' :: s.flatMap jsonEscapeChar ++ ['"']

/-- `json.dumps` of a `dict[str, str]` (default separators). -/
def jsonDumpsDict (kvs : List (Str × Str)) : Str :=
  '\x7b' :: List.intercalate (", ".data)
    (kvs.map (fun kv => jsonQuote kv.1 ++ (':' :: ' ' :: jsonQuote kv.2))) ++ ['\x7d']

/-- `json.dumps` of an optional `dict[str, str]` (`None` becomes `null`). -/
def jsonDumpsOptDict : Option (List (Str × Str)) → Str
  | Option.none => "null".data
  | some kvs => jsonDumpsDict kvs

/-! ## `F5ProjectConfig` -/

/-- The `F5ProjectConfig` dataclass.  The nine required fields are strings;
the two optional fields are JSON mappings or `None`. -/
structure F5ProjectConfig where
  finlab_api_token : Str
  fugle_account : Str
  fugle_password : Str
  fugle_cert : Str
  fugle_cert_password : Str
  fugle_api_entry : Str
  fugle_api_key : Str
  fugle_api_secret : Str
  fugle_market_api_key : Str
  gcf_service_account : Option (List (Str × Str)) := Option.none
  repo_synced : Option (List (Str × Str)) := Option.none
deriving DecidableEq

/-- `F5ProjectConfig.BINARY_FILE_FIELDS`. -/
def BINARY_FILE_FIELDS : List Str := ["fugle_cert".data]

/-- `F5ProjectConfig.JSON_FIELDS`. -/
def JSON_FIELDS : List Str := ["gcf_service_account".data, "repo_synced".data]

/-- `F5ProjectConfig.all_field_names`: the dataclass fields, in declaration
order. -/
def all_field_names : List Str :=
  ["finlab_api_token".data, "fugle_account".data, "fugle_password".data,
   "fugle_cert".data, "fugle_cert_password".data, "fugle_api_entry".data,
   "fugle_api_key".data, "fugle_api_secret".data, "fugle_market_api_key".data,
   "gcf_service_account".data, "repo_synced".data]

/-- `getattr(config, f)` for the nine string fields. -/
def F5ProjectConfig.getattrStr (cfg : F5ProjectConfig) (f : Str) : Str :=
  if f = "finlab_api_token".data then cfg.finlab_api_token
  else if f = "fugle_account".data then cfg.fugle_account
  else if f = "fugle_password".data then cfg.fugle_password
  else if f = "fugle_cert".data then cfg.fugle_cert
  else if f = "fugle_cert_password".data then cfg.fugle_cert_password
  else if f = "fugle_api_entry".data then cfg.fugle_api_entry
  else if f = "fugle_api_key".data then cfg.fugle_api_key
  else if f = "fugle_api_secret".data then cfg.fugle_api_secret
  else cfg.fugle_market_api_key

/-- `getattr(config, f)` for the two JSON fields. -/
def F5ProjectConfig.getattrJson (cfg : F5ProjectConfig) (f : Str) :
    Option (List (Str × Str)) :=
  if f = "gcf_service_account".data then cfg.gcf_service_account
  else cfg.repo_synced

/-- `str.upper()` for the (ASCII) field names. -/
def pyUpper (s : Str) : Str := s.map Char.toUpper

/-- `F5ProjectConfig.to_fugle_config`: project the five broker fields. -/
def F5ProjectConfig.to_fugle_config (cfg : F5ProjectConfig) : FugleConfig :=
  ⟨cfg.fugle_cert, cfg.fugle_api_entry, cfg.fugle_api_key, cfg.fugle_api_secret,
    cfg.fugle_account⟩

/-! ## `F5Project` — endpoint registration and invocation -/

/-- A positional argument of a Python call: an HTTP request (with its JSON
body, as delivered by the functions framework) or an ordinary value. -/
inductive PyArg where
  | request : PyVal → PyArg
  | plain : PyVal → PyArg

/-- A user endpoint function: positional arguments and keyword arguments to a
result. -/
def UserFunc := List PyArg → List (Str × PyVal) → PyVal

/-- A registered endpoint: the function name (`func.__name__`) and the
function itself. -/
structure RegisteredEndpoint where
  name : Str
  func : UserFunc

/-- The `wrapper` closure created by `F5Project.gcf_endpoint`: a call with
exactly one positional argument that is a request unpacks the request JSON
body as keyword arguments (`func(**payload)`, a `TypeError` when the body is
not an object); any other call is passed through unchanged. -/
def wrapped (f : UserFunc) (args : List PyArg) (kwargs : List (Str × PyVal)) :
    Except String PyVal :=
  match args with
  | [PyArg.request body] =>
    match body with
    | .dict kvs => .ok (f [] kvs)
    | _ => .error "TypeError"
  | _ => .ok (f args kwargs)

/-- The `F5Project` runtime state relevant to registration and invocation:
the configuration and the at-most-one registered endpoint. -/
structure F5Project where
  config : F5ProjectConfig
  gcfEndpoint : Option RegisteredEndpoint

/-- `F5Project(config)`: fresh instance, no endpoint registered. -/
def F5Project.init (cfg : F5ProjectConfig) : F5Project := ⟨cfg, Option.none⟩

/-- `F5Project.gcf_endpoint(func)` (the decorator): raises when an endpoint is
already registered, otherwise stores the wrapper.  Returns the outcome and the
resulting instance state. -/
def F5Project.gcf_endpoint (st : F5Project) (f : RegisteredEndpoint) :
    Except String Unit × F5Project :=
  match st.gcfEndpoint with
  | some _ => (.error "Only one GCF endpoint is allowed", st)
  | Option.none => (.ok (), ⟨st.config, some f⟩)

/-- The command-line flags read by `call_gcf_endpoint`:
`-d`/`--directly` (presence) and `-p`/`--params` (parsed with `json.loads`
when present). -/
structure CliArgs where
  directly : Bool
  params : Option PyVal

/-- `F5Project.call_gcf_endpoint(directly, params)`.

`directly = args.directly or directly` and `params = args.params or params`
apply the CLI overrides (with Python truthiness).  Direct mode calls the
wrapper with `**params`; simulated mode posts `params` as the JSON body of an
in-process request and returns the JSON-decoded response, which the
specification abstracts as the request/response documents themselves. -/
def F5Project.call_gcf_endpoint (st : F5Project) (cli : CliArgs) (directly : Bool)
    (params : List (Str × PyVal)) : Except String PyVal :=
  match st.gcfEndpoint with
  | Option.none => .error "No GCF endpoint registered"
  | some ep =>
    let d := cli.directly || directly
    let p : PyVal :=
      match cli.params with
      | some v => if pyTruthy v then v else PyVal.dict params
      | Option.none => PyVal.dict params
    if d then
      match p with
      | PyVal.dict kvs => wrapped ep.func [] kvs
      | _ => .error "TypeError"
    else
      wrapped ep.func [PyArg.request p] []

/-- `F5Project.setup_github_secrets`: requires `repo_synced` and a registered
endpoint, then builds the dotenv mapping handed to the secret sync service:
each field name upper-cased, JSON fields `json.dumps`-ed, other fields
verbatim, plus `GCF_FUNCTION_TARGET` naming the endpoint. -/
def F5Project.setup_github_secrets (st : F5Project) :
    Except String (List (Str × Str)) :=
  match st.config.repo_synced with
  | Option.none => .error "No repo_synced field in settings"
  | some _ =>
    match st.gcfEndpoint with
    | Option.none => .error "No GCF endpoint registered"
    | some ep =>
      .ok ((all_field_names.map (fun f =>
        (pyUpper f,
          if f ∈ JSON_FIELDS then jsonDumpsOptDict (st.config.getattrJson f)
          else st.config.getattrStr f)))
        ++ [("GCF_FUNCTION_TARGET".data, ep.name)])

/-! ## `F5ProjectConfig.from_json`

The JSON document is an association list of field name to JSON value; the
file system is a mapping from paths to byte contents; `json_dir` is the
directory of the JSON file (`json_path.parent`). -/

/-- `json_path.parent / Path(v)`: pathlib keeps an absolute right operand. -/
def pathJoin (dir : Str) (p : Str) : Str :=
  match p with
  | '/' :: _ => p
  | _ => dir ++ ('/' :: p)

/-- A tiny file system: path to byte contents. -/
def FS := List (Str × List Nat)

def fsRead (fs : FS) (path : Str) : Option (List Nat) :=
  match fs.find? (fun e => e.1 = path) with
  | some e => some e.2
  | Option.none => Option.none

/-- `all_values.get(f, None)`: the document value of a field, with both an
absent key and an explicit JSON `null` giving Python `None`. -/
def lookupField (doc : List (Str × PyVal)) (f : Str) : PyVal :=
  match doc.find? (fun e => e.1 = f) with
  | some e => e.2
  | Option.none => PyVal.none

/-- `FugleCert.from_file(json_path.parent / Path(v)).to_string()`: the value
must be a string (a `Path()` of anything else — including `None` — raises),
and the referenced file must exist. -/
def resolveBinary (fs : FS) (json_dir : Str) (v : PyVal) : Except String PyVal :=
  match v with
  | PyVal.str s =>
    match fsRead fs (pathJoin json_dir s) with
    | some bytes => .ok (PyVal.str (FugleCert.from_file bytes).to_string)
    | Option.none => .error "FileNotFoundError"
  | _ => .error "TypeError"

/-- `F5ProjectConfig.from_json`: for each declared field take the document
value; the binary field is resolved as a file reference, other fields are
stored verbatim.  The result is the `field_values` mapping passed to the
dataclass constructor. -/
def from_json (fs : FS) (json_dir : Str) (doc : List (Str × PyVal)) :
    Except String (List (Str × PyVal)) :=
  all_field_names.foldr
    (fun f acc =>
      match (if f ∈ BINARY_FILE_FIELDS then resolveBinary fs json_dir (lookupField doc f)
             else .ok (lookupField doc f)), acc with
      | .ok v, .ok rest => .ok ((f, v) :: rest)
      | .error e, _ => .error e
      | _, .error e => .error e)
    (.ok [])

/-! ## The scaffolding CLI (`f5project/cli/__init__.py`) -/

inductive CliOutcome where
  | created : Str → CliOutcome
  | unknown : Str → CliOutcome

/-- `cli()`: raises unless exactly two arguments follow the program name;
dispatches `create-project`, otherwise prints the unknown-task message. -/
def cli (argv : List Str) : Except String CliOutcome :=
  match argv with
  | [_prog, task, arg] =>
    if task = "create-project".data then .ok (.created arg)
    else
      .ok (.unknown ("Unknown task: ".data ++ task ++
        ". `create-project` is the only task available.".data))
  | _ => .error "Invalid number of arguments"

instance (d : List (Str × List (Str × Str))) : Decidable (cleanConfig d) := by
  unfold cleanConfig
  infer_instance

instance {ε α : Type} [DecidableEq ε] [DecidableEq α] : DecidableEq (Except ε α) :=
  fun a b =>
    match a, b with
    | .error e1, .error e2 =>
      if h : e1 = e2 then isTrue (by rw [h])
      else isFalse (fun hc => h (by injection hc))
    | .ok v1, .ok v2 =>
      if h : v1 = v2 then isTrue (by rw [h])
      else isFalse (fun hc => h (by injection hc))
    | .error _, .ok _ => isFalse (fun hc => Except.noConfusion hc)
    | .ok _, .error _ => isFalse (fun hc => Except.noConfusion hc)

/-! ## Sample data for witnesses -/

def sampleConfig : F5ProjectConfig :=
  ⟨"tok".data, "acct".data, "pw".data, "QUJD".data, "certpw".data,
    "https://e".data, "key".data, "sec".data, "mkey".data, Option.none,
    some [("repo".data, "o/r".data)]⟩

/-- An endpoint that echoes its keyword arguments. -/
def sampleFunc : UserFunc := fun _ kwargs => PyVal.dict kwargs

def sampleEndpoint : RegisteredEndpoint := ⟨"main".data, sampleFunc⟩

/-! ## Claims -/

/-- C3: for every byte sequence stored in a file, `FugleCert.from_file`
followed by `FugleCert.to_file` writes exactly the original bytes. -/
theorem c3_cert_binary_roundtrip (bytes : List Nat) (h : ∀ b ∈ bytes, b < 256) :
    (FugleCert.from_file bytes).to_file = .ok bytes := by
  unfold FugleCert.to_file FugleCert.from_file
  simp only
  rw [b64decode_b64encode bytes h]

theorem c3_cert_binary_roundtrip_witness :
    (∀ b ∈ [0, 255, 17, 34, 51, 68, 85, 102, 119, 136], b < 256) ∧
      (FugleCert.from_file [0, 255, 17, 34, 51, 68, 85, 102, 119, 136]).to_file =
        .ok [0, 255, 17, 34, 51, 68, 85, 102, 119, 136] :=
  ⟨by decide, c3_cert_binary_roundtrip [0, 255, 17, 34, 51, 68, 85, 102, 119, 136] (by decide)⟩

/-- C8: the scaffolding CLI raises whenever the argument count differs from
exactly two after the program name (so three entries in `sys.argv`), including
`create-project` with no destination. -/
theorem c8_cli_argc (argv : List Str) (h : argv.length ≠ 3) :
    cli argv = .error "Invalid number of arguments" := by
  cases argv with
  | nil => rfl
  | cons a t1 =>
    cases t1 with
    | nil => rfl
    | cons b t2 =>
      cases t2 with
      | nil => rfl
      | cons c t3 =>
        cases t3 with
        | nil => exact absurd rfl h
        | cons d t4 => rfl

theorem c8_cli_argc_witness :
    ([("f5project".data : Str), "create-project".data] : List Str).length ≠ 3 ∧
      cli [("f5project".data : Str), "create-project".data] =
        .error "Invalid number of arguments" :=
  ⟨by decide, c8_cli_argc [("f5project".data : Str), "create-project".data] (by decide)⟩

/-- C4: registering on an instance that already has an endpoint errors and
leaves the state unchanged; invoking with no registered endpoint errors; a
first registration on a fresh instance succeeds. -/
theorem c4_single_registration :
    (∀ (st : F5Project) (f : RegisteredEndpoint), st.gcfEndpoint.isSome →
        (st.gcf_endpoint f).1 = .error "Only one GCF endpoint is allowed" ∧
          (st.gcf_endpoint f).2 = st) ∧
    (∀ (st : F5Project) (cl : CliArgs) (d : Bool) (p : List (Str × PyVal)),
        st.gcfEndpoint = Option.none →
          st.call_gcf_endpoint cl d p = .error "No GCF endpoint registered") ∧
    (∀ (cfg : F5ProjectConfig) (f : RegisteredEndpoint),
        ((F5Project.init cfg).gcf_endpoint f).1 = .ok ()) := by
  refine ⟨?_, ?_, ?_⟩
  · intro st f h
    obtain ⟨cfg, ep⟩ := st
    cases ep with
    | none => simp at h
    | some e => exact ⟨rfl, rfl⟩
  · intro st cl d p h
    obtain ⟨cfg, ep⟩ := st
    cases ep with
    | none => rfl
    | some e => simp at h
  · intro cfg f
    rfl

theorem c4_single_registration_witness :
    ((F5Project.mk sampleConfig (some sampleEndpoint)).gcf_endpoint sampleEndpoint).1 =
        .error "Only one GCF endpoint is allowed" ∧
      (F5Project.init sampleConfig).call_gcf_endpoint ⟨false, Option.none⟩ true [] =
        .error "No GCF endpoint registered" ∧
      ((F5Project.init sampleConfig).gcf_endpoint sampleEndpoint).1 = .ok () :=
  ⟨(c4_single_registration.1 (F5Project.mk sampleConfig (some sampleEndpoint))
      sampleEndpoint rfl).1,
    c4_single_registration.2.1 (F5Project.init sampleConfig) ⟨false, Option.none⟩ true [] rfl,
    c4_single_registration.2.2 sampleConfig sampleEndpoint⟩

/-- C5: with no CLI flags, direct mode calls the registered function with
exactly the given params as keyword arguments and returns its result
unmodified, and simulated-request mode (JSON body `params`, JSON-decoded
response) yields the same result. -/
theorem c5_direct_and_simulated_agree (cfg : F5ProjectConfig) (name : Str)
    (f : UserFunc) (params : List (Str × PyVal)) :
    ((((F5Project.init cfg).gcf_endpoint ⟨name, f⟩).2).call_gcf_endpoint
        ⟨false, Option.none⟩ true params = .ok (f [] params)) ∧
    ((((F5Project.init cfg).gcf_endpoint ⟨name, f⟩).2).call_gcf_endpoint
        ⟨false, Option.none⟩ false params = .ok (f [] params)) :=
  ⟨rfl, rfl⟩

/-- C9: the wrapper passes every call through unchanged except a call with
exactly one positional argument that is a request, whose JSON body is unpacked
as keyword arguments. -/
theorem c9_wrapper_passthrough :
    (∀ (f : UserFunc) (args : List PyArg) (kwargs : List (Str × PyVal)),
        (∀ body : PyVal, args ≠ [PyArg.request body]) →
          wrapped f args kwargs = .ok (f args kwargs)) ∧
    (∀ (f : UserFunc) (kvs : List (Str × PyVal)) (kwargs : List (Str × PyVal)),
        wrapped f [PyArg.request (PyVal.dict kvs)] kwargs = .ok (f [] kvs)) := by
  constructor
  · intro f args kwargs h
    rcases args with _ | ⟨a, _ | ⟨b, rest⟩⟩
    · rfl
    · cases a with
      | request bd => exact absurd rfl (h bd)
      | plain v => rfl
    · cases a <;> rfl
  · intro f kvs kwargs
    rfl

theorem c9_wrapper_passthrough_witness :
    (∀ body : PyVal, [PyArg.plain (PyVal.int 5)] ≠ [PyArg.request body]) ∧
      wrapped sampleFunc [PyArg.plain (PyVal.int 5)] [] =
        .ok (sampleFunc [PyArg.plain (PyVal.int 5)] []) :=
  ⟨fun body => by simp,
    c9_wrapper_passthrough.1 sampleFunc [PyArg.plain (PyVal.int 5)] []
      (fun body => by simp)⟩

/-- C6 (code bug): a CLI `--params` value that is falsy in Python — such as
the explicit empty object `-p '\x7b\x7d'` — is ignored by
`params = args.params or params`, and the programmatic params are used
instead, against the method docstring ("CLI arguments have higher priority").
Here the CLI supplies `{}` but the endpoint is still called with the
programmatic `{"a": 1}`. -/
theorem c6_cli_falsy_params_ignored :
    (F5Project.mk sampleConfig (some sampleEndpoint)).call_gcf_endpoint
        ⟨false, some (PyVal.dict [])⟩ true [("a".data, PyVal.int 1)] =
      .ok (PyVal.dict [("a".data, PyVal.int 1)]) := rfl

/-- C7: the secret-sync mapping has the upper-cased field names as keys (JSON
fields `json.dumps`-ed, others verbatim) plus `GCF_FUNCTION_TARGET` naming the
endpoint; a missing `repo_synced` or missing registration raises without
building the mapping. -/
theorem c7_setup_github_secrets :
    (∀ st : F5Project, st.config.repo_synced = Option.none →
        st.setup_github_secrets = .error "No repo_synced field in settings") ∧
    (∀ (st : F5Project) (r : List (Str × Str)), st.config.repo_synced = some r →
        st.gcfEndpoint = Option.none →
        st.setup_github_secrets = .error "No GCF endpoint registered") ∧
    (∀ (st : F5Project) (r : List (Str × Str)) (ep : RegisteredEndpoint),
        st.config.repo_synced = some r → st.gcfEndpoint = some ep →
        st.setup_github_secrets = .ok
          [("FINLAB_API_TOKEN".data, st.config.finlab_api_token),
           ("FUGLE_ACCOUNT".data, st.config.fugle_account),
           ("FUGLE_PASSWORD".data, st.config.fugle_password),
           ("FUGLE_CERT".data, st.config.fugle_cert),
           ("FUGLE_CERT_PASSWORD".data, st.config.fugle_cert_password),
           ("FUGLE_API_ENTRY".data, st.config.fugle_api_entry),
           ("FUGLE_API_KEY".data, st.config.fugle_api_key),
           ("FUGLE_API_SECRET".data, st.config.fugle_api_secret),
           ("FUGLE_MARKET_API_KEY".data, st.config.fugle_market_api_key),
           ("GCF_SERVICE_ACCOUNT".data, jsonDumpsOptDict st.config.gcf_service_account),
           ("REPO_SYNCED".data, jsonDumpsDict r),
           ("GCF_FUNCTION_TARGET".data, ep.name)]) := by
  refine ⟨?_, ?_, ?_⟩
  · intro st h
    obtain ⟨⟨a1, a2, a3, a4, a5, a6, a7, a8, a9, ga, rs⟩, eo⟩ := st
    dsimp only at h
    subst h
    rfl
  · intro st r h1 h2
    obtain ⟨⟨a1, a2, a3, a4, a5, a6, a7, a8, a9, ga, rs⟩, eo⟩ := st
    dsimp only at h1 h2
    subst h1
    subst h2
    rfl
  · intro st r ep h1 h2
    obtain ⟨⟨a1, a2, a3, a4, a5, a6, a7, a8, a9, ga, rs⟩, eo⟩ := st
    dsimp only at h1 h2
    subst h1
    subst h2
    rfl

theorem c7_setup_github_secrets_witness :
    (F5Project.mk sampleConfig (some sampleEndpoint)).config.repo_synced =
        some [("repo".data, "o/r".data)] ∧
      (F5Project.mk sampleConfig (some sampleEndpoint)).gcfEndpoint = some sampleEndpoint ∧
      (F5Project.mk sampleConfig (some sampleEndpoint)).setup_github_secrets = .ok
        [("FINLAB_API_TOKEN".data, "tok".data),
         ("FUGLE_ACCOUNT".data, "acct".data),
         ("FUGLE_PASSWORD".data, "pw".data),
         ("FUGLE_CERT".data, "QUJD".data),
         ("FUGLE_CERT_PASSWORD".data, "certpw".data),
         ("FUGLE_API_ENTRY".data, "https://e".data),
         ("FUGLE_API_KEY".data, "key".data),
         ("FUGLE_API_SECRET".data, "sec".data),
         ("FUGLE_MARKET_API_KEY".data, "mkey".data),
         ("GCF_SERVICE_ACCOUNT".data, "null".data),
         ("REPO_SYNCED".data, jsonDumpsDict [("repo".data, "o/r".data)]),
         ("GCF_FUNCTION_TARGET".data, "main".data)] :=
  ⟨rfl, rfl,
    c7_setup_github_secrets.2.2 (F5Project.mk sampleConfig (some sampleEndpoint))
      [("repo".data, "o/r".data)] sampleEndpoint rfl rfl⟩

/-- The input on which the C2 claim, as stated for every mapping, fails: a
value containing a blank interior line.  The writer turns the value
`"a\n\nb"` into a `"\n\t"`-continuation whose blank middle line is then
stripped, so the file does not contain one `key = value` line per key. -/
def c2Input : List (Str × List (Str × Str)) :=
  [("Core".data, [("Entry".data, ['a', '\n', '\n', 'b'])])]

/-- C2 counterexample: the writer output differs from the claimed
header-plus-one-line-per-key format on `c2Input`. -/
theorem c2_writer_format_counterexample :
    simpleConfigToFile c2Input ≠ .ok (expectedOutput c2Input) := by decide

/-- C2 (amended): for every mapping whose section names are distinct, none
named `DEFAULT`, and whose section names, keys and values contain no newline
or carriage-return characters, the writer produces exactly: for each section
in insertion order a header line, then one `key = value` line per key in
insertion order, no blank lines, key case preserved. -/
theorem c2_writer_format_amended (d : List (Str × List (Str × Str)))
    (hnodup : (sectionNames d).Nodup) (hdef : "DEFAULT".data ∉ sectionNames d)
    (hclean : cleanConfig d) :
    simpleConfigToFile d = .ok (expectedOutput d) := by
  unfold simpleConfigToFile
  rw [if_neg (by push_neg; exact ⟨hdef, hnodup⟩), stripBlank_writeConfig d hclean]

/-- C2 witness: the instance from the specification,
`Core.Entry = https://x`, `Api.Key = k`, `Api.Secret = s`. -/
def c2SpecInput : List (Str × List (Str × Str)) :=
  [("Core".data, [("Entry".data, "https://x".data)]),
   ("Api".data, [("Key".data, "k".data), ("Secret".data, "s".data)])]

theorem c2_writer_format_witness :
    (sectionNames c2SpecInput).Nodup ∧ "DEFAULT".data ∉ sectionNames c2SpecInput ∧
      cleanConfig c2SpecInput ∧
      simpleConfigToFile c2SpecInput = .ok (expectedOutput c2SpecInput) :=
  ⟨by decide, by decide, by decide,
    c2_writer_format_amended c2SpecInput (by decide) (by decide) (by decide)⟩

/-- C10: loading a JSON document whose `fugle_cert` entry is absent or `null`
raises (the value is unconditionally treated as a file path); non-binary
fields absent from the document are stored as `None` without error. -/
theorem c10_from_json_cert_required :
    (∀ (fs : FS) (dir : Str) (doc : List (Str × PyVal)),
        lookupField doc "fugle_cert".data = PyVal.none →
          from_json fs dir doc = .error "TypeError") ∧
    (∀ (dir s : Str) (bytes : List Nat),
        from_json [(pathJoin dir s, bytes)] dir [("fugle_cert".data, PyVal.str s)] =
          .ok [("finlab_api_token".data, PyVal.none),
               ("fugle_account".data, PyVal.none),
               ("fugle_password".data, PyVal.none),
               ("fugle_cert".data, PyVal.str (b64encode bytes)),
               ("fugle_cert_password".data, PyVal.none),
               ("fugle_api_entry".data, PyVal.none),
               ("fugle_api_key".data, PyVal.none),
               ("fugle_api_secret".data, PyVal.none),
               ("fugle_market_api_key".data, PyVal.none),
               ("gcf_service_account".data, PyVal.none),
               ("repo_synced".data, PyVal.none)]) := by
  constructor
  · intro fs dir doc h
    have hres : resolveBinary fs dir (lookupField doc "fugle_cert".data) =
        .error "TypeError" := by
      rw [h]
      rfl
    unfold from_json
    simp only [all_field_names, List.foldr_cons, List.foldr_nil]
    rw [if_neg (by decide : ¬ ("finlab_api_token".data ∈ BINARY_FILE_FIELDS)),
      if_neg (by decide : ¬ ("fugle_account".data ∈ BINARY_FILE_FIELDS)),
      if_neg (by decide : ¬ ("fugle_password".data ∈ BINARY_FILE_FIELDS)),
      if_pos (by decide : ("fugle_cert".data ∈ BINARY_FILE_FIELDS)),
      if_neg (by decide : ¬ ("fugle_cert_password".data ∈ BINARY_FILE_FIELDS)),
      if_neg (by decide : ¬ ("fugle_api_entry".data ∈ BINARY_FILE_FIELDS)),
      if_neg (by decide : ¬ ("fugle_api_key".data ∈ BINARY_FILE_FIELDS)),
      if_neg (by decide : ¬ ("fugle_api_secret".data ∈ BINARY_FILE_FIELDS)),
      if_neg (by decide : ¬ ("fugle_market_api_key".data ∈ BINARY_FILE_FIELDS)),
      if_neg (by decide : ¬ ("gcf_service_account".data ∈ BINARY_FILE_FIELDS)),
      if_neg (by decide : ¬ ("repo_synced".data ∈ BINARY_FILE_FIELDS)),
      hres]
  · intro dir s bytes
    have hlk : lookupField [("fugle_cert".data, PyVal.str s)] "fugle_cert".data =
        PyVal.str s := rfl
    have hres : resolveBinary [(pathJoin dir s, bytes)] dir (PyVal.str s) =
        .ok (PyVal.str (b64encode bytes)) := by
      unfold resolveBinary fsRead
      simp [FugleCert.from_file, FugleCert.to_string]
    unfold from_json
    simp only [all_field_names, List.foldr_cons, List.foldr_nil]
    rw [if_neg (by decide : ¬ ("finlab_api_token".data ∈ BINARY_FILE_FIELDS)),
      if_neg (by decide : ¬ ("fugle_account".data ∈ BINARY_FILE_FIELDS)),
      if_neg (by decide : ¬ ("fugle_password".data ∈ BINARY_FILE_FIELDS)),
      if_pos (by decide : ("fugle_cert".data ∈ BINARY_FILE_FIELDS)),
      if_neg (by decide : ¬ ("fugle_cert_password".data ∈ BINARY_FILE_FIELDS)),
      if_neg (by decide : ¬ ("fugle_api_entry".data ∈ BINARY_FILE_FIELDS)),
      if_neg (by decide : ¬ ("fugle_api_key".data ∈ BINARY_FILE_FIELDS)),
      if_neg (by decide : ¬ ("fugle_api_secret".data ∈ BINARY_FILE_FIELDS)),
      if_neg (by decide : ¬ ("fugle_market_api_key".data ∈ BINARY_FILE_FIELDS)),
      if_neg (by decide : ¬ ("gcf_service_account".data ∈ BINARY_FILE_FIELDS)),
      if_neg (by decide : ¬ ("repo_synced".data ∈ BINARY_FILE_FIELDS)),
      hlk, hres]
    rfl

theorem c10_from_json_cert_required_witness :
    lookupField [] "fugle_cert".data = PyVal.none ∧
      from_json [] "/j".data [] = .error "TypeError" ∧
      from_json [(pathJoin "/j".data "c.p12".data, [1, 2])] "/j".data
          [("fugle_cert".data, PyVal.str "c.p12".data)] =
        .ok [("finlab_api_token".data, PyVal.none),
             ("fugle_account".data, PyVal.none),
             ("fugle_password".data, PyVal.none),
             ("fugle_cert".data, PyVal.str (b64encode [1, 2])),
             ("fugle_cert_password".data, PyVal.none),
             ("fugle_api_entry".data, PyVal.none),
             ("fugle_api_key".data, PyVal.none),
             ("fugle_api_secret".data, PyVal.none),
             ("fugle_market_api_key".data, PyVal.none),
             ("gcf_service_account".data, PyVal.none),
             ("repo_synced".data, PyVal.none)] :=
  ⟨rfl,
    c10_from_json_cert_required.1 [] "/j".data [] rfl,
    c10_from_json_cert_required.2 "/j".data "c.p12".data [1, 2]⟩

/-! ## Reading back the generated config file (claim C1) -/

theorem findDelim_cons (c : Char) (cs : Str) :
    findDelim (c :: cs) =
      if c = '=' ∨ c = ':' then some 0 else (findDelim cs).map (· + 1) := rfl

theorem findDelim_append (K M : Str) (h : findDelim K = Option.none) :
    findDelim (K ++ M) = (findDelim M).map (fun j => K.length + j) := by
  induction K with
  | nil =>
    simp only [List.nil_append, List.length_nil]
    cases findDelim M <;> simp
  | cons c cs ih =>
    rw [findDelim_cons] at h
    by_cases hc : c = '=' ∨ c = ':'
    · rw [if_pos hc] at h
      exact absurd h (by simp)
    · rw [if_neg hc] at h
      have hcs : findDelim cs = Option.none := by
        cases hfd : findDelim cs with
        | none => rfl
        | some j => rw [hfd] at h; simp at h
      rw [List.cons_append, findDelim_cons, if_neg hc, ih hcs]
      cases findDelim M with
      | none => simp
      | some j =>
        show some (cs.length + j + 1) = some ((c :: cs).length + j)
        simp only [List.length_cons, Option.some.injEq]
        omega

theorem indentOf_cons (c : Char) (rest : Str) (h : pyIsSpace c = false) :
    indentOf (c :: rest) = 0 := by
  simp [indentOf, List.takeWhile_cons, h]

theorem sectMatch_cons_ne (c : Char) (rest : Str) (h : c ≠ '[') :
    sectMatch (c :: rest) = Option.none := by
  simp [sectMatch, h]

theorem pyRstrip_concat_space (A : Str) : pyRstrip (A ++ [' ']) = pyRstrip A := by
  unfold pyRstrip
  exact List.rdropWhile_concat_pos pyIsSpace A ' ' (by decide)

theorem pyStrip_cons_space (v : Str) (hv : pyStrip v = v) : pyStrip (' ' :: v) = v := by
  calc pyStrip (' ' :: v) = pyStrip v := by
        unfold pyStrip pyLstrip
        rw [List.dropWhile_cons_of_pos (by decide)]
    _ = v := hv

theorem pyLstrip_of_head (K : Str) (hne : K ≠ []) (hh : pyIsSpace K.headI = false) :
    pyLstrip K = K := by
  cases K with
  | nil => exact absurd rfl hne
  | cons c cs =>
    simp only [List.headI] at hh
    unfold pyLstrip
    rw [List.dropWhile_cons_of_neg (by simp [hh])]

/-- Stripping a written `key = value` line: with a clean key and a
strip-invariant value, only the trailing delimiter space can go (when the
value is empty). -/
theorem pyStrip_optline (K v : Str) (hK3 : pyRstrip K = K) (hKne : K ≠ [])
    (hKh : pyIsSpace K.headI = false) (hv : pyStrip v = v) :
    pyStrip (K ++ (' ' :: '=' :: ' ' :: v)) =
      if v = [] then K ++ [' ', '='] else K ++ (' ' :: '=' :: ' ' :: v) := by
  have hlk : pyLstrip K = K := pyLstrip_of_head K hKne hKh
  have hl : pyLstrip (K ++ (' ' :: '=' :: ' ' :: v)) = K ++ (' ' :: '=' :: ' ' :: v) :=
    pyLstrip_append K _ hlk hKne
  unfold pyStrip
  rw [hl]
  cases v with
  | nil =>
    rw [if_pos rfl]
    have h1 : K ++ (' ' :: '=' :: ' ' :: ([] : Str)) = (K ++ [' ', '=']) ++ [' '] := by simp
    rw [h1, pyRstrip_concat_space]
    have h2 : K ++ [' ', '='] = (K ++ [' ']) ++ ['='] := by simp
    rw [h2, pyRstrip_append (K ++ [' ']) ['='] (by decide) (by simp)]
  | cons c v' =>
    rw [if_neg (by simp)]
    have h1 : K ++ (' ' :: '=' :: ' ' :: (c :: v')) =
        (K ++ [' ', '=', ' ']) ++ (c :: v') := by simp
    rw [h1, pyRstrip_append (K ++ [' ', '=', ' ']) (c :: v')
      (strip_inv_parts hv).2 (by simp)]

/-- `OPTCRE` on `K =` (empty value): key `K`, value empty. -/
theorem optcre_form1 (K : Str) (hK1 : findDelim K = Option.none)
    (hK3 : pyRstrip K = K) :
    optcreMatch (K ++ [' ', '=']) = some (K, []) := by
  unfold optcreMatch
  rw [findDelim_append K [' ', '='] hK1,
    show findDelim [' ', '='] = some 1 from rfl]
  show some (pyRstrip ((K ++ [' ', '=']).take (K.length + 1)),
      pyStrip ((K ++ [' ', '=']).drop (K.length + 1 + 1))) = some (K, [])
  have ht : (K ++ [' ', '=']).take (K.length + 1) = K ++ [' '] := by
    rw [List.take_append_eq_append_take, List.take_of_length_le (by omega),
      show K.length + 1 - K.length = 1 from by omega]
    rfl
  have hd : (K ++ [' ', '=']).drop (K.length + 1 + 1) = [] := by
    rw [List.drop_append_eq_append_drop, List.drop_eq_nil_of_le (by omega),
      show K.length + 1 + 1 - K.length = 2 from by omega]
    rfl
  rw [ht, hd, pyRstrip_concat_space, hK3]
  rfl

/-- `OPTCRE` on `K = v` for a nonempty strip-invariant value. -/
theorem optcre_form2 (K v : Str) (hK1 : findDelim K = Option.none)
    (hK3 : pyRstrip K = K) (hv : pyStrip v = v) :
    optcreMatch (K ++ (' ' :: '=' :: ' ' :: v)) = some (K, v) := by
  unfold optcreMatch
  rw [findDelim_append K (' ' :: '=' :: ' ' :: v) hK1,
    show findDelim (' ' :: '=' :: ' ' :: v) = some 1 from rfl]
  show some (pyRstrip ((K ++ (' ' :: '=' :: ' ' :: v)).take (K.length + 1)),
      pyStrip ((K ++ (' ' :: '=' :: ' ' :: v)).drop (K.length + 1 + 1))) = some (K, v)
  have ht : (K ++ (' ' :: '=' :: ' ' :: v)).take (K.length + 1) = K ++ [' '] := by
    rw [List.take_append_eq_append_take, List.take_of_length_le (by omega),
      show K.length + 1 - K.length = 1 from by omega]
    rfl
  have hd : (K ++ (' ' :: '=' :: ' ' :: v)).drop (K.length + 1 + 1) = ' ' :: v := by
    rw [List.drop_append_eq_append_drop, List.drop_eq_nil_of_le (by omega),
      show K.length + 1 + 1 - K.length = 2 from by omega]
    rfl
  rw [ht, hd, pyRstrip_concat_space, hK3, pyStrip_cons_space v hv]

/-- One `_read` step on a line whose stripped form is a non-comment,
non-header option assignment at indent 0. -/
theorem pstep_via (st : PState) (sec : Str) (L : Str) (k0 : Char) (urest : Str)
    (hu : pyStrip L = k0 :: urest)
    (hc1 : k0 ≠ '#') (hc2 : k0 ≠ ';') (hc3 : k0 ≠ '[')
    (hind : indentOf L = 0)
    (hsec : st.cursect = some sec)
    (K v : Str) (hopt : optcreMatch (k0 :: urest) = some (K, v)) :
    pstep st L =
      if st.hasOption sec K then Except.error "DuplicateOptionError"
      else Except.ok (st.setOption sec K v 0) := by
  have hho : headerOrOption st (k0 :: urest) 0 =
      if st.hasOption sec K then Except.error "DuplicateOptionError"
      else Except.ok (st.setOption sec K v 0) := by
    unfold headerOrOption
    rw [sectMatch_cons_ne k0 urest hc3, hsec, hopt]
  unfold pstep
  rw [hu, hind, hsec]
  cases hop : st.optname with
  | none =>
    exact (if_neg (by simp [hc1, hc2])).trans ((if_neg (by simp)).trans hho)
  | some key =>
    exact (if_neg (by simp [hc1, hc2])).trans ((if_neg (by simp)).trans
      ((if_neg (fun hcon => Nat.not_lt_zero st.indent hcon.2)).trans hho))

/-- One `_read` step on a written option line `K = v` in section `sec`. -/
theorem pstep_optline (st : PState) (sec K v : Str)
    (hsec : st.cursect = some sec)
    (hK1 : findDelim K = Option.none) (hK3 : pyRstrip K = K) (hKne : K ≠ [])
    (hKh : pyIsSpace K.headI = false)
    (hc1 : K.headI ≠ '#') (hc2 : K.headI ≠ ';') (hc3 : K.headI ≠ '[')
    (hv : pyStrip v = v) :
    pstep st (K ++ (' ' :: '=' :: ' ' :: v)) =
      if st.hasOption sec K then Except.error "DuplicateOptionError"
      else Except.ok (st.setOption sec K v 0) := by
  obtain ⟨k0, K', rfl⟩ : ∃ k0 K', K = k0 :: K' := by
    cases K with
    | nil => exact absurd rfl hKne
    | cons a b => exact ⟨a, b, rfl⟩
  simp only [List.headI] at hKh hc1 hc2 hc3
  have hstrip := pyStrip_optline (k0 :: K') v hK3 hKne (by simpa using hKh) hv
  have hind : indentOf ((k0 :: K') ++ (' ' :: '=' :: ' ' :: v)) = 0 := by
    rw [List.cons_append]
    exact indentOf_cons k0 _ hKh
  cases v with
  | nil =>
    rw [if_pos rfl] at hstrip
    have hshape : (k0 :: K') ++ [' ', '='] = k0 :: (K' ++ [' ', '=']) := by simp
    rw [hshape] at hstrip
    exact pstep_via st sec _ k0 _ hstrip hc1 hc2 hc3 hind hsec (k0 :: K') []
      (by rw [← hshape]; exact optcre_form1 (k0 :: K') hK1 hK3)
  | cons c v' =>
    rw [if_neg (by simp)] at hstrip
    have hshape : (k0 :: K') ++ (' ' :: '=' :: ' ' :: (c :: v')) =
        k0 :: (K' ++ (' ' :: '=' :: ' ' :: (c :: v'))) := by simp
    rw [hshape] at hstrip
    exact pstep_via st sec _ k0 _ hstrip hc1 hc2 hc3 hind hsec (k0 :: K') (c :: v')
      (by rw [← hshape]; exact optcre_form2 (k0 :: K') (c :: v') hK1 hK3 hv)

theorem runLines_cons_ok (st st' : PState) (l : Str) (ls : List Str)
    (h : pstep st l = .ok st') : runLines st (l :: ls) = runLines st' ls := by
  simp [runLines, h]

/-- Re-reading a file of clean newline-terminated lines yields those lines. -/
theorem pyLines_join (L : List Str) (h : ∀ l ∈ L, ∀ c ∈ l, c ≠ '\n' ∧ c ≠ '\r') :
    pyLines ((L.map (· ++ ['\n'])).flatten) = L := by
  unfold pyLines
  rw [splitLines_join L h]
  simp

theorem joinParts_single (x : Str) (hx : pyRstrip x = x) : joinParts [x] = x := by
  unfold joinParts
  simp only [List.intercalate, List.intersperse_singleton, List.flatten,
    List.append_nil]
  exact hx

theorem configLines_clean (d : List (Str × List (Str × Str))) (hc : cleanConfig d) :
    ∀ l ∈ configLines d, ∀ c ∈ l, c ≠ '\n' ∧ c ≠ '\r' := by
  intro l hl
  have hmem : l ∈ linesWithBlanks d := by
    rw [← filter_linesWithBlanks] at hl
    exact List.mem_of_mem_filter hl
  exact linesWithBlanks_clean d hc l hmem

theorem fugleConfigDict_clean (cfg : FugleConfig) (path : Str)
    (he : noNLCR cfg.fugle_api_entry) (hk : noNLCR cfg.fugle_api_key)
    (hs : noNLCR cfg.fugle_api_secret) (ha : noNLCR cfg.fugle_account)
    (hp : noNLCR path) :
    cleanConfig (fugleConfigDict cfg path) := by
  intro p hp2
  fin_cases hp2
  · refine ⟨(by decide : noNLCR ("Core".data)), ?_⟩
    intro kv hkv
    fin_cases hkv
    exact ⟨(by decide : noNLCR ("Entry".data)), he⟩
  · refine ⟨(by decide : noNLCR ("Cert".data)), ?_⟩
    intro kv hkv
    fin_cases hkv
    exact ⟨(by decide : noNLCR ("Path".data)), hp⟩
  · refine ⟨(by decide : noNLCR ("Api".data)), ?_⟩
    intro kv hkv
    fin_cases hkv
    · exact ⟨(by decide : noNLCR ("Key".data)), hk⟩
    · exact ⟨(by decide : noNLCR ("Secret".data)), hs⟩
  · refine ⟨(by decide : noNLCR ("User".data)), ?_⟩
    intro kv hkv
    fin_cases hkv
    exact ⟨(by decide : noNLCR ("Account".data)), ha⟩

/-- Re-reading the config file text generated for a `FugleConfig` recovers
exactly the four sections with the written values, provided the values are
newline-free and strip-invariant. -/
theorem parse_fugle_dict (cert entry key secret account path : Str)
    (heM : noNLCR entry) (heS : pyStrip entry = entry)
    (hkM : noNLCR key) (hkS : pyStrip key = key)
    (hsM : noNLCR secret) (hsS : pyStrip secret = secret)
    (haM : noNLCR account) (haS : pyStrip account = account)
    (hpM : noNLCR path) (hpS : pyStrip path = path) :
    parseConfig (expectedOutput
        (fugleConfigDict ⟨cert, entry, key, secret, account⟩ path)) =
      .ok ⟨[], [("Core".data, [("Entry".data, entry)]),
                ("Cert".data, [("Path".data, path)]),
                ("Api".data, [("Key".data, key), ("Secret".data, secret)]),
                ("User".data, [("Account".data, account)])]⟩ := by
  have hclean : cleanConfig (fugleConfigDict ⟨cert, entry, key, secret, account⟩ path) :=
    fugleConfigDict_clean _ path heM hkM hsM haM hpM
  have hlines : configLines (fugleConfigDict ⟨cert, entry, key, secret, account⟩ path) =
      [('[' :: "Core".data ++ [']']),
       ("Entry".data ++ (' ' :: '=' :: ' ' :: entry)),
       ('[' :: "Cert".data ++ [']']),
       ("Path".data ++ (' ' :: '=' :: ' ' :: path)),
       ('[' :: "Api".data ++ [']']),
       ("Key".data ++ (' ' :: '=' :: ' ' :: key)),
       ("Secret".data ++ (' ' :: '=' :: ' ' :: secret)),
       ('[' :: "User".data ++ [']']),
       ("Account".data ++ (' ' :: '=' :: ' ' :: account))] := rfl
  have hpy : pyLines (expectedOutput (fugleConfigDict ⟨cert, entry, key, secret, account⟩ path)) =
      configLines (fugleConfigDict ⟨cert, entry, key, secret, account⟩ path) := by
    rw [expectedOutput_lines]
    exact pyLines_join _ (configLines_clean _ hclean)
  have s1 : pstep initPState ('[' :: "Core".data ++ [']']) =
      .ok ⟨[], [("Core".data, [])], some "Core".data, Option.none, 0, false⟩ := rfl
  have s2 : pstep ⟨[], [("Core".data, [])], some "Core".data, Option.none, 0, false⟩
      ("Entry".data ++ (' ' :: '=' :: ' ' :: entry)) =
      .ok ⟨[], [("Core".data, [("Entry".data, [entry])])], some "Core".data,
        some "Entry".data, 0, false⟩ := by
    rw [pstep_optline _ "Core".data "Entry".data entry rfl (by decide) (by decide)
      (by decide) (by decide) (by decide) (by decide) (by decide) heS]
    rfl
  have s3 : pstep ⟨[], [("Core".data, [("Entry".data, [entry])])], some "Core".data,
      some "Entry".data, 0, false⟩ ('[' :: "Cert".data ++ [']']) =
      .ok ⟨[], [("Core".data, [("Entry".data, [entry])]), ("Cert".data, [])],
        some "Cert".data, Option.none, 0, false⟩ := rfl
  have s4 : pstep ⟨[], [("Core".data, [("Entry".data, [entry])]), ("Cert".data, [])],
      some "Cert".data, Option.none, 0, false⟩
      ("Path".data ++ (' ' :: '=' :: ' ' :: path)) =
      .ok ⟨[], [("Core".data, [("Entry".data, [entry])]),
          ("Cert".data, [("Path".data, [path])])],
        some "Cert".data, some "Path".data, 0, false⟩ := by
    rw [pstep_optline _ "Cert".data "Path".data path rfl (by decide) (by decide)
      (by decide) (by decide) (by decide) (by decide) (by decide) hpS]
    rfl
  have s5 : pstep ⟨[], [("Core".data, [("Entry".data, [entry])]),
      ("Cert".data, [("Path".data, [path])])],
      some "Cert".data, some "Path".data, 0, false⟩ ('[' :: "Api".data ++ [']']) =
      .ok ⟨[], [("Core".data, [("Entry".data, [entry])]),
          ("Cert".data, [("Path".data, [path])]), ("Api".data, [])],
        some "Api".data, Option.none, 0, false⟩ := rfl
  have s6 : pstep ⟨[], [("Core".data, [("Entry".data, [entry])]),
      ("Cert".data, [("Path".data, [path])]), ("Api".data, [])],
      some "Api".data, Option.none, 0, false⟩
      ("Key".data ++ (' ' :: '=' :: ' ' :: key)) =
      .ok ⟨[], [("Core".data, [("Entry".data, [entry])]),
          ("Cert".data, [("Path".data, [path])]), ("Api".data, [("Key".data, [key])])],
        some "Api".data, some "Key".data, 0, false⟩ := by
    rw [pstep_optline _ "Api".data "Key".data key rfl (by decide) (by decide)
      (by decide) (by decide) (by decide) (by decide) (by decide) hkS]
    rfl
  have s7 : pstep ⟨[], [("Core".data, [("Entry".data, [entry])]),
      ("Cert".data, [("Path".data, [path])]), ("Api".data, [("Key".data, [key])])],
      some "Api".data, some "Key".data, 0, false⟩
      ("Secret".data ++ (' ' :: '=' :: ' ' :: secret)) =
      .ok ⟨[], [("Core".data, [("Entry".data, [entry])]),
          ("Cert".data, [("Path".data, [path])]),
          ("Api".data, [("Key".data, [key]), ("Secret".data, [secret])])],
        some "Api".data, some "Secret".data, 0, false⟩ := by
    rw [pstep_optline _ "Api".data "Secret".data secret rfl (by decide) (by decide)
      (by decide) (by decide) (by decide) (by decide) (by decide) hsS]
    rfl
  have s8 : pstep ⟨[], [("Core".data, [("Entry".data, [entry])]),
      ("Cert".data, [("Path".data, [path])]),
      ("Api".data, [("Key".data, [key]), ("Secret".data, [secret])])],
      some "Api".data, some "Secret".data, 0, false⟩ ('[' :: "User".data ++ [']']) =
      .ok ⟨[], [("Core".data, [("Entry".data, [entry])]),
          ("Cert".data, [("Path".data, [path])]),
          ("Api".data, [("Key".data, [key]), ("Secret".data, [secret])]),
          ("User".data, [])],
        some "User".data, Option.none, 0, false⟩ := rfl
  have s9 : pstep ⟨[], [("Core".data, [("Entry".data, [entry])]),
      ("Cert".data, [("Path".data, [path])]),
      ("Api".data, [("Key".data, [key]), ("Secret".data, [secret])]),
      ("User".data, [])],
      some "User".data, Option.none, 0, false⟩
      ("Account".data ++ (' ' :: '=' :: ' ' :: account)) =
      .ok ⟨[], [("Core".data, [("Entry".data, [entry])]),
          ("Cert".data, [("Path".data, [path])]),
          ("Api".data, [("Key".data, [key]), ("Secret".data, [secret])]),
          ("User".data, [("Account".data, [account])])],
        some "User".data, some "Account".data, 0, false⟩ := by
    rw [pstep_optline _ "User".data "Account".data account rfl (by decide) (by decide)
      (by decide) (by decide) (by decide) (by decide) (by decide) haS]
    rfl
  unfold parseConfig
  rw [hpy, hlines, runLines_cons_ok _ _ _ _ s1, runLines_cons_ok _ _ _ _ s2,
    runLines_cons_ok _ _ _ _ s3, runLines_cons_ok _ _ _ _ s4,
    runLines_cons_ok _ _ _ _ s5, runLines_cons_ok _ _ _ _ s6,
    runLines_cons_ok _ _ _ _ s7, runLines_cons_ok _ _ _ _ s8,
    runLines_cons_ok _ _ _ _ s9]
  show Except.ok (⟨joinOpts [],
      ([("Core".data, [("Entry".data, [entry])]),
        ("Cert".data, [("Path".data, [path])]),
        ("Api".data, [("Key".data, [key]), ("Secret".data, [secret])]),
        ("User".data, [("Account".data, [account])])].map
        (fun s => (s.1, joinOpts s.2)))⟩ : ParsedConfig) =
    Except.ok (⟨[], [("Core".data, [("Entry".data, entry)]),
        ("Cert".data, [("Path".data, path)]),
        ("Api".data, [("Key".data, key), ("Secret".data, secret)]),
        ("User".data, [("Account".data, account)])]⟩ : ParsedConfig)
  simp only [joinOpts, List.map_cons, List.map_nil]
  rw [joinParts_single entry (strip_inv_parts heS).2,
    joinParts_single path (strip_inv_parts hpS).2,
    joinParts_single key (strip_inv_parts hkS).2,
    joinParts_single secret (strip_inv_parts hsS).2,
    joinParts_single account (strip_inv_parts haS).2]

/-- C1 (amended): for a configuration whose certificate decodes and whose four
other broker fields (and the data directory) are free of newlines and of
leading/trailing whitespace, `to_fugle_config` + `to_file` writes the decoded
certificate and the four-section config file, and re-reading that file
reproduces the five values (`Cert.Path` holding the certificate path). -/
theorem c1_broker_config_roundtrip_amended (pc : F5ProjectConfig) (dir : Str)
    (bytes : List Nat)
    (hb : b64decode pc.fugle_cert = some bytes)
    (hdM : noNLCR dir) (hdS : pyStrip dir = dir)
    (heM : noNLCR pc.fugle_api_entry)
    (heS : pyStrip pc.fugle_api_entry = pc.fugle_api_entry)
    (hkM : noNLCR pc.fugle_api_key)
    (hkS : pyStrip pc.fugle_api_key = pc.fugle_api_key)
    (hsM : noNLCR pc.fugle_api_secret)
    (hsS : pyStrip pc.fugle_api_secret = pc.fugle_api_secret)
    (haM : noNLCR pc.fugle_account)
    (haS : pyStrip pc.fugle_account = pc.fugle_account) :
    (pc.to_fugle_config).to_file dir =
      .ok ⟨dir ++ "/fugle-cert.p12".data, bytes,
        expectedOutput (fugleConfigDict pc.to_fugle_config
          (dir ++ "/fugle-cert.p12".data))⟩ ∧
    parseConfig (expectedOutput (fugleConfigDict pc.to_fugle_config
        (dir ++ "/fugle-cert.p12".data))) =
      .ok ⟨[], [("Core".data, [("Entry".data, pc.fugle_api_entry)]),
                ("Cert".data, [("Path".data, dir ++ "/fugle-cert.p12".data)]),
                ("Api".data, [("Key".data, pc.fugle_api_key),
                              ("Secret".data, pc.fugle_api_secret)]),
                ("User".data, [("Account".data, pc.fugle_account)])]⟩ := by
  have hpsC : pyRstrip ("/fugle-cert.p12".data) = "/fugle-cert.p12".data := by decide
  have hpM : noNLCR (dir ++ "/fugle-cert.p12".data) := by
    intro c hc
    rcases List.mem_append.mp hc with h | h
    · exact hdM c h
    · exact (by decide : noNLCR ("/fugle-cert.p12".data)) c h
  have hpS : pyStrip (dir ++ "/fugle-cert.p12".data) = dir ++ "/fugle-cert.p12".data := by
    have hl : pyLstrip (dir ++ "/fugle-cert.p12".data) = dir ++ "/fugle-cert.p12".data := by
      cases dir with
      | nil =>
        show pyLstrip ([] ++ "/fugle-cert.p12".data) = [] ++ "/fugle-cert.p12".data
        rw [List.nil_append]
        decide
      | cons d0 dir' =>
        exact pyLstrip_append _ _ (strip_inv_parts hdS).1 (by simp)
    have hr : pyRstrip (dir ++ "/fugle-cert.p12".data) = dir ++ "/fugle-cert.p12".data :=
      pyRstrip_append dir _ hpsC (by decide)
    unfold pyStrip
    rw [hl, hr]
  have hclean : cleanConfig (fugleConfigDict pc.to_fugle_config
      (dir ++ "/fugle-cert.p12".data)) :=
    fugleConfigDict_clean _ _ heM hkM hsM haM hpM
  have hout : simpleConfigToFile (fugleConfigDict pc.to_fugle_config
      (dir ++ "/fugle-cert.p12".data)) =
      .ok (expectedOutput (fugleConfigDict pc.to_fugle_config
        (dir ++ "/fugle-cert.p12".data))) := by
    unfold simpleConfigToFile
    rw [if_neg (by
      rw [show sectionNames (fugleConfigDict pc.to_fugle_config
          (dir ++ "/fugle-cert.p12".data)) =
        ["Core".data, "Cert".data, "Api".data, "User".data] from rfl]
      decide), stripBlank_writeConfig _ hclean]
  have hcert : (FugleCert.from_string (pc.to_fugle_config).fugle_cert).to_file =
      .ok bytes := by
    have hb2 : b64decode (FugleCert.from_string (pc.to_fugle_config).fugle_cert).string =
        some bytes := hb
    unfold FugleCert.to_file
    rw [hb2]
  constructor
  · unfold FugleConfig.to_file
    rw [hcert, hout]
  · exact parse_fugle_dict pc.fugle_cert pc.fugle_api_entry pc.fugle_api_key
      pc.fugle_api_secret pc.fugle_account (dir ++ "/fugle-cert.p12".data)
      heM heS hkM hkS hsM hsS haM haS hpM hpS

/-- The C1 claim exactly as stated, as an executable check: projecting,
writing and re-reading reproduces the five field values (the file having the
four sections with `Cert.Path` the certificate path and the other four values
verbatim). -/
def c1Check (pc : F5ProjectConfig) (dir : Str) : Bool :=
  match (pc.to_fugle_config).to_file dir with
  | .error _ => false
  | .ok files =>
    decide (parseConfig files.config_text =
      .ok ⟨[], [("Core".data, [("Entry".data, pc.fugle_api_entry)]),
                ("Cert".data, [("Path".data, files.cert_path)]),
                ("Api".data, [("Key".data, pc.fugle_api_key),
                              ("Secret".data, pc.fugle_api_secret)]),
                ("User".data, [("Account".data, pc.fugle_account)])]⟩)

/-- A configuration whose API entry has a leading space (a perfectly valid
string), on which the round trip fails: the reader strips option values, so
`" x"` is read back as `"x"`. -/
def c1BadConfig : F5ProjectConfig :=
  ⟨"t".data, "a".data, "p".data, [], "cp".data, (' ' :: 'x' :: []), "k".data,
    "s".data, "m".data, Option.none, Option.none⟩

/-- C1 counterexample: the claim, as stated for every record with string
fields, is false. -/
theorem c1_roundtrip_counterexample : c1Check c1BadConfig "/tmp".data = false := by
  decide

def c1GoodConfig : F5ProjectConfig :=
  ⟨"tok".data, "acct".data, "pw".data, "QUJD".data, "cp".data, "https://e".data,
    "key".data, "sec".data, "m".data, Option.none, Option.none⟩

theorem c1_broker_config_roundtrip_witness :
    b64decode c1GoodConfig.fugle_cert = some [65, 66, 67] ∧
      ((c1GoodConfig.to_fugle_config).to_file "/tmp".data =
        .ok ⟨"/tmp".data ++ "/fugle-cert.p12".data, [65, 66, 67],
          expectedOutput (fugleConfigDict c1GoodConfig.to_fugle_config
            ("/tmp".data ++ "/fugle-cert.p12".data))⟩ ∧
      parseConfig (expectedOutput (fugleConfigDict c1GoodConfig.to_fugle_config
          ("/tmp".data ++ "/fugle-cert.p12".data))) =
        .ok ⟨[], [("Core".data, [("Entry".data, "https://e".data)]),
                  ("Cert".data, [("Path".data, "/tmp".data ++ "/fugle-cert.p12".data)]),
                  ("Api".data, [("Key".data, "key".data), ("Secret".data, "sec".data)]),
                  ("User".data, [("Account".data, "acct".data)])]⟩) :=
  ⟨by decide,
    c1_broker_config_roundtrip_amended c1GoodConfig "/tmp".data [65, 66, 67]
      (by decide) (by decide) (by decide) (by decide) (by decide) (by decide)
      (by decide) (by decide) (by decide) (by decide) (by decide)⟩
